import Mathlib

/-!
# AppleUSBEHCI test mode (AppleEHCITestMode.cpp)

A shallow embedding of the four member functions of `AppleEHCITestMode.cpp`:
`EnterTestMode`, `PlacePortInMode`, `LeaveTestMode` and the dispatcher
`UIMSetTestMode`, over an explicit record of the registers and fields they
touch.

Registers are `UInt32` in the source; here they are natural numbers, and every
operation that can leave 32 bits (`~`, `<<`) is reduced modulo `2 ^ 32`.
`USBToHostLong` and `HostToUSBLong` are the two directions of one byte-order
conversion, applied at every register access; the registers are held here in
host order. `USBLog` has no effect on the state or on the result and is left
out.
-/

namespace AppleUSBEHCI

/-- The result type of the member functions (`IOReturn`, a 32-bit code). -/
abbrev IOReturn := Nat

/-- The IOKit code for success. -/
def kIOReturnSuccess : IOReturn := 0

/-- The IOKit code `iokit_common_err(0x2c9)`, as a 32-bit pattern. -/
def kIOReturnInternalError : IOReturn := 0xE00002C9

/-- Mode numbers of the anonymous enum at the top of the file. -/
def kEHCITestMode_Off : Nat := 0
/-- Mode number of the J-state test. -/
def kEHCITestMode_J_State : Nat := 1
/-- Mode number of the K-state test. -/
def kEHCITestMode_K_State : Nat := 2
/-- Mode number of the SE0/NAK test. -/
def kEHCITestMode_SE0_NAK : Nat := 3
/-- Mode number of the packet test. -/
def kEHCITestMode_Packet : Nat := 4
/-- Mode number of the force-enable test. -/
def kEHCITestMode_ForceEnable : Nat := 5
/-- Mode number that starts a test session. -/
def kEHCITestMode_Start : Nat := 10
/-- Mode number that ends a test session. -/
def kEHCITestMode_End : Nat := 11

/-- The part of the driver instance the four functions read or write:
the operational registers `USBCMD`, `USBSTS` and `PortSC[]`, the capability
register `HCSParams`, and the fields `_ehciBusState` and `_testModeEnabled`.
`USBSTS` is owned by the hardware: the driver only reads it, and the field
holds the value a read returns. -/
structure EHCI where
  USBCMD : Nat
  USBSTS : Nat
  HCSParams : Nat
  PortSC : Nat → Nat
  _ehciBusState : Nat
  _testModeEnabled : Bool

/-- What `AppleUSBEHCI.h` declares and this file uses without defining:
the register bit masks, the bit position of the test-control field, the
bus-state code, and the port count that `GetNumberOfPorts` stores through its
`UInt8` pointer. They are parameters of the embedding. -/
structure Decls where
  kEHCICMDRunStop : Nat
  kEHCICMDHCReset : Nat
  kEHCICMDPeriodicEnable : Nat
  kEHCICMDAsyncEnable : Nat
  kEHCIHCHaltedBit : Nat
  kEHCIPortSC_Enabled : Nat
  kEHCIPortSC_Suspend : Nat
  kEHCIPortSC_Owner : Nat
  kEHCIPortSC_TestControl : Nat
  kEHCIPortSC_TestControlPhase : Nat
  kEHCINumPortsMask : Nat
  kEHCIBusStateOff : Nat
  GetNumberOfPorts : Nat

/-- Modelled from the spec: the declarations of `AppleUSBEHCI.h`, which is not
among the sources, at the positions the EHCI register layout gives them:
run/stop bit 0, reset bit 1, periodic enable bit 4, async enable bit 5 of
`USBCMD`; halted bit 12 of `USBSTS`; enabled bit 2, suspend bit 7, owner bit 13
and the four-bit test-control field at bits 16..19 of `PortSC`; the port count
in bits 0..3 of `HCSParams`. The port-topology query reports `n` ports. -/
def ehciDecls (n : Nat) : Decls where
  kEHCICMDRunStop := 0x1
  kEHCICMDHCReset := 0x2
  kEHCICMDPeriodicEnable := 0x10
  kEHCICMDAsyncEnable := 0x20
  kEHCIHCHaltedBit := 0x1000
  kEHCIPortSC_Enabled := 0x4
  kEHCIPortSC_Suspend := 0x80
  kEHCIPortSC_Owner := 0x2000
  kEHCIPortSC_TestControl := 0xF0000
  kEHCIPortSC_TestControlPhase := 16
  kEHCINumPortsMask := 0xF
  kEHCIBusStateOff := 0
  GetNumberOfPorts := n

/-- The C operator `~` on a 32-bit operand. -/
def not32 (x : Nat) : Nat := 0xFFFFFFFF ^^^ (x % 2 ^ 32)

/-- The assignment `PortSC[i] = v`. -/
def EHCI.setPortSC (s : EHCI) (i v : Nat) : EHCI :=
  { s with PortSC := fun j => if j = i then v else s.PortSC j }

/-- How far a call has got when it is observed: `returned ret s` when it has
returned `ret` leaving the state `s`, `spinning s` when it is still inside the
polling loop of `EnterTestMode` with the state `s`. -/
inductive Outcome where
  | returned (ret : IOReturn) (s : EHCI)
  | spinning (s : EHCI)

/-- One pass of the body of the `for` loop of `EnterTestMode`, for port `i`. -/
def suspendPort (c : Decls) (s : EHCI) (i : Nat) : EHCI :=
  let portStat := s.PortSC i
  if portStat &&& c.kEHCIPortSC_Owner ≠ 0 then
    s
  else if portStat &&& c.kEHCIPortSC_Enabled ≠ 0 then
    let portStat := portStat ||| c.kEHCIPortSC_Suspend
    s.setPortSC i portStat
  else
    s

/-- The loop `for (i=0; i < numPorts; i++)` of `EnterTestMode`. -/
def suspendPorts (c : Decls) (numPorts : Nat) (s : EHCI) : EHCI :=
  (List.range numPorts).foldl (suspendPort c) s

/-- The loop `do { usbsts = USBSTS; } while (!(usbsts & kEHCIHCHaltedBit));`
of `EnterTestMode` and the two statements after it. The hardware shows
`sts n` at the read number `n` (counted from 0); `fuel` bounds the number of
reads that are observed. -/
def waitForHalted (c : Decls) (sts : Nat → Nat) : Nat → Nat → EHCI → Outcome
  | 0, _, s => Outcome.spinning s
  | fuel + 1, n, s =>
    let s := { s with USBSTS := sts n }
    let usbsts := s.USBSTS
    if usbsts &&& c.kEHCIHCHaltedBit ≠ 0 then
      Outcome.returned kIOReturnSuccess { s with _testModeEnabled := true }
    else
      waitForHalted c sts fuel (n + 1) s

/-- The statements of `EnterTestMode` before the polling loop. -/
def haltController (c : Decls) (s : EHCI) : EHCI :=
  -- disable the periodic and async schedules
  let usbcmd := s.USBCMD
  let usbcmd := usbcmd &&& not32 c.kEHCICMDAsyncEnable
  let usbcmd := usbcmd &&& not32 c.kEHCICMDPeriodicEnable
  let s := { s with USBCMD := usbcmd }
  -- suspend all enabled ports
  let numPorts := c.GetNumberOfPorts % 256
  let s := suspendPorts c numPorts s
  -- set run/stop
  let usbcmd := usbcmd &&& not32 c.kEHCICMDRunStop
  let s := { s with USBCMD := usbcmd }
  { s with _ehciBusState := c.kEHCIBusStateOff }

/-- `AppleUSBEHCI::EnterTestMode`, observed after at most `fuel` reads of the
status register, which shows `sts 0`, `sts 1`, ... at its successive reads. -/
def EnterTestMode (c : Decls) (sts : Nat → Nat) (fuel : Nat) (s : EHCI) : Outcome :=
  waitForHalted c sts fuel 0 (haltController c s)

/-- `AppleUSBEHCI::PlacePortInMode`. -/
def PlacePortInMode (c : Decls) (port mode : Nat) (s : EHCI) : IOReturn × EHCI :=
  if !s._testModeEnabled then
    (kIOReturnInternalError, s)
  else
    let numPorts := (s.HCSParams &&& c.kEHCINumPortsMask) % 256
    if port ≥ numPorts then
      (kIOReturnInternalError, s)
    else
      let portStat := s.PortSC port
      if portStat &&& c.kEHCIPortSC_Owner ≠ 0 then
        (kIOReturnInternalError, s)
      else
        let portStat := portStat &&& not32 c.kEHCIPortSC_TestControl
        let portStat := portStat ||| (mode <<< c.kEHCIPortSC_TestControlPhase) % 2 ^ 32
        (kIOReturnSuccess, s.setPortSC port portStat)

/-- `AppleUSBEHCI::LeaveTestMode`. -/
def LeaveTestMode (c : Decls) (s : EHCI) : IOReturn × EHCI :=
  -- make sure we are halted
  let usbcmd := s.USBCMD
  let usbsts := s.USBSTS
  if ¬ (usbsts &&& c.kEHCIHCHaltedBit ≠ 0) then
    (kIOReturnInternalError, s)
  else
    -- place controller in reset
    let usbcmd := usbcmd ||| c.kEHCICMDHCReset
    let s := { s with USBCMD := usbcmd }
    (kIOReturnSuccess, { s with _testModeEnabled := false })

/-- `AppleUSBEHCI::UIMSetTestMode`, the one entry point; `sts` and `fuel` are
those of `EnterTestMode`. -/
def UIMSetTestMode (c : Decls) (sts : Nat → Nat) (fuel : Nat) (mode port : Nat) (s : EHCI) :
    Outcome :=
  let ret := kIOReturnInternalError
  if mode = kEHCITestMode_Off ∨ mode = kEHCITestMode_J_State ∨ mode = kEHCITestMode_K_State ∨
      mode = kEHCITestMode_SE0_NAK ∨ mode = kEHCITestMode_Packet ∨
      mode = kEHCITestMode_ForceEnable then
    if s._testModeEnabled then
      let r := PlacePortInMode c port mode s
      Outcome.returned r.1 r.2
    else
      Outcome.returned ret s
  else if mode = kEHCITestMode_Start then
    EnterTestMode c sts fuel s
  else if mode = kEHCITestMode_End then
    let r := LeaveTestMode c s
    Outcome.returned r.1 r.2
  else
    Outcome.returned ret s

/-- A status register that shows the halted bit from its fourth read on. -/
def sampleStatus : Nat → Nat := fun n => if n < 3 then 0x0 else 0x1000

/-- The state an observed call has reached. -/
def Outcome.state : Outcome → EHCI
  | Outcome.returned _ s => s
  | Outcome.spinning s => s

/-- A concrete controller with four ports: port 0 enabled, port 1 owned by the
companion controller, ports 2 and 3 idle; running, not halted. -/
def sampleEHCI : EHCI where
  USBCMD := 0x10031
  USBSTS := 0x0
  HCSParams := 0x1004
  PortSC := fun j => if j = 0 then 0x1005 else if j = 1 then 0x3001 else 0x1000
  _ehciBusState := 2
  _testModeEnabled := false

/-- What can happen to the controller between two observations: a call of the
entry point `UIMSetTestMode`, with what the status register shows while the
call polls and the bound on the reads that are observed; or the hardware
giving the status register a new value between two calls. -/
inductive Event where
  | call (mode port : Nat) (sts : Nat → Nat) (fuel : Nat)
  | status (usbsts : Nat)

/-- A finite sequence of events, each call made on the state the events before
it left: `some s` is the state after the last event when every call has
returned, `none` when a call is still polling at its bound. -/
def runEvents (c : Decls) : List Event → EHCI → Option EHCI
  | [], s => some s
  | Event.call mode port sts fuel :: es, s =>
    match UIMSetTestMode c sts fuel mode port s with
    | Outcome.returned _ s' => runEvents c es s'
    | Outcome.spinning _ => none
  | Event.status usbsts :: es, s => runEvents c es { s with USBSTS := usbsts }

/-- A short history of the sample controller: Start, then the J-state test on
port 0, then the status register dropping to 0. -/
def sampleEvents : List Event :=
  [Event.call kEHCITestMode_Start 0 sampleStatus 4,
   Event.call kEHCITestMode_J_State 0 sampleStatus 0,
   Event.status 0x0]

/-- What the session flag promises about the controller: while
`_testModeEnabled` is set, the run/stop bit and the two schedule-enable bits of
the command register are clear and the recorded bus state is off. -/
def haltedWhileEnabled (c : Decls) (s : EHCI) : Prop :=
  s._testModeEnabled = true →
    s.USBCMD &&& c.kEHCICMDRunStop = 0 ∧ s.USBCMD &&& c.kEHCICMDAsyncEnable = 0 ∧
    s.USBCMD &&& c.kEHCICMDPeriodicEnable = 0 ∧ s._ehciBusState = c.kEHCIBusStateOff

/-! ## Bit-level facts -/

/-- Bit `i` of `~x`: set exactly when `i` is one of the 32 positions and bit
`i` of `x` is clear. -/
theorem testBit_not32 (x i : Nat) :
    (not32 x).testBit i = (decide (i < 32) && !x.testBit i) := by
  have h : (0xFFFFFFFF : Nat) = 2 ^ 32 - 1 := by norm_num
  unfold not32
  rw [h, Nat.testBit_xor, Nat.testBit_two_pow_sub_one, Nat.testBit_mod_two_pow]
  by_cases hi : i < 32 <;> simp [hi]

/-- A number below `2 ^ k` has no bit at or above position `k`. -/
theorem testBit_eq_false_of_lt_two_pow {x k i : Nat} (hx : x < 2 ^ k) (hi : k ≤ i) :
    x.testBit i = false :=
  Nat.testBit_lt_two_pow (lt_of_lt_of_le hx (Nat.pow_le_pow_right (by norm_num) hi))

/-- Clearing a mask in a 32-bit register keeps every bit the mask lacks. -/
theorem testBit_and_not32 {x : Nat} (hx : x < 2 ^ 32) (m i : Nat) :
    (x &&& not32 m).testBit i = (x.testBit i && !m.testBit i) := by
  rw [Nat.testBit_and, testBit_not32]
  by_cases hi : i < 32
  · simp [hi]
  · simp [testBit_eq_false_of_lt_two_pow hx (Nat.le_of_not_lt hi)]

/-- Clearing a mask leaves none of its bits set. -/
theorem and_not32_and_self (x m : Nat) : x &&& not32 m &&& m = 0 := by
  apply Nat.eq_of_testBit_eq
  intro i
  simp only [Nat.testBit_and, testBit_not32, Nat.zero_testBit]
  cases m.testBit i <;> simp

/-- Bit `i` of the four-bit field mask placed at position `p`. -/
theorem testBit_field4 (p i : Nat) :
    ((0xF : Nat) <<< p).testBit i = (decide (p ≤ i) && decide (i - p < 4)) := by
  have h : (0xF : Nat) = 2 ^ 4 - 1 := by norm_num
  rw [h, Nat.testBit_shiftLeft, Nat.testBit_two_pow_sub_one]

/-- Reading a port register after the assignment `PortSC[i] = v`. -/
theorem setPortSC_PortSC (s : EHCI) (i v j : Nat) :
    (s.setPortSC i v).PortSC j = if j = i then v else s.PortSC j := rfl

/-- The value `PlacePortInMode` stores when it gets past its three checks. -/
theorem PlacePortInMode_write (c : Decls) (s : EHCI) (port mode : Nat)
    (hen : s._testModeEnabled = true)
    (hport : port < (s.HCSParams &&& c.kEHCINumPortsMask) % 256)
    (hown : s.PortSC port &&& c.kEHCIPortSC_Owner = 0) :
    PlacePortInMode c port mode s =
      (kIOReturnSuccess, s.setPortSC port
        (s.PortSC port &&& not32 c.kEHCIPortSC_TestControl |||
          (mode <<< c.kEHCIPortSC_TestControlPhase) % 2 ^ 32)) := by
  unfold PlacePortInMode
  simp [hen, hown, Nat.not_le.mpr hport]

/-- A failed check of `PlacePortInMode` on the port number. -/
theorem PlacePortInMode_invalid_port (c : Decls) (s : EHCI) (port mode : Nat)
    (hport : (s.HCSParams &&& c.kEHCINumPortsMask) % 256 ≤ port) :
    PlacePortInMode c port mode s = (kIOReturnInternalError, s) := by
  unfold PlacePortInMode
  by_cases hen : s._testModeEnabled = true
  · simp [hen, hport]
  · simp [hen]

/-- A failed check of `PlacePortInMode` on the owner of the port. -/
theorem PlacePortInMode_owned (c : Decls) (s : EHCI) (port mode : Nat)
    (hown : s.PortSC port &&& c.kEHCIPortSC_Owner ≠ 0) :
    PlacePortInMode c port mode s = (kIOReturnInternalError, s) := by
  unfold PlacePortInMode
  by_cases hen : s._testModeEnabled = true
  · by_cases hport : (s.HCSParams &&& c.kEHCINumPortsMask) % 256 ≤ port
    · simp [hen, hport]
    · simp [hen, hport, hown]
  · simp [hen]

/-- What `LeaveTestMode` does when the status register lacks the halted bit. -/
theorem LeaveTestMode_not_halted (c : Decls) (s : EHCI)
    (hsts : s.USBSTS &&& c.kEHCIHCHaltedBit = 0) :
    LeaveTestMode c s = (kIOReturnInternalError, s) := by
  unfold LeaveTestMode
  simp [hsts]

/-- What `LeaveTestMode` does when the status register has the halted bit. -/
theorem LeaveTestMode_halted (c : Decls) (s : EHCI)
    (hsts : s.USBSTS &&& c.kEHCIHCHaltedBit ≠ 0) :
    LeaveTestMode c s =
      (kIOReturnSuccess,
        { s with USBCMD := s.USBCMD ||| c.kEHCICMDHCReset, _testModeEnabled := false }) := by
  unfold LeaveTestMode
  simp [hsts]

/-- Or-ing a mask in sets all of its bits. -/
theorem or_and_self (x m : Nat) : (x ||| m) &&& m = m := by
  apply Nat.eq_of_testBit_eq
  intro i
  simp only [Nat.testBit_and, Nat.testBit_or]
  cases x.testBit i <;> cases m.testBit i <;> rfl

/-- Or-ing a mask in twice is or-ing it in once. -/
theorem or_or_self (x m : Nat) : x ||| m ||| m = x ||| m := by
  rw [Nat.or_assoc, Nat.or_self]

/-! ## The port loop and the polling loop of `EnterTestMode` -/

/-- One pass of the port loop changes at most `PortSC[i]`, by the rule of the
loop body. -/
theorem suspendPort_PortSC (c : Decls) (s : EHCI) (i j : Nat) :
    (suspendPort c s i).PortSC j =
      if j = i then
        (if s.PortSC i &&& c.kEHCIPortSC_Owner ≠ 0 then s.PortSC i
         else if s.PortSC i &&& c.kEHCIPortSC_Enabled ≠ 0 then
           s.PortSC i ||| c.kEHCIPortSC_Suspend
         else s.PortSC i)
      else s.PortSC j := by
  unfold suspendPort
  by_cases hij : j = i
  · subst hij
    by_cases ho : s.PortSC j &&& c.kEHCIPortSC_Owner = 0
    · by_cases he : s.PortSC j &&& c.kEHCIPortSC_Enabled = 0
      · simp [ho, he]
      · simp [ho, he, setPortSC_PortSC]
    · simp [ho]
  · by_cases ho : s.PortSC i &&& c.kEHCIPortSC_Owner = 0
    · by_cases he : s.PortSC i &&& c.kEHCIPortSC_Enabled = 0
      · simp [ho, he, hij]
      · simp [ho, he, hij, setPortSC_PortSC]
    · simp [ho, hij]

/-- One pass of the port loop writes nothing but the port registers. -/
theorem suspendPort_frame (c : Decls) (s : EHCI) (i : Nat) :
    suspendPort c s i = { s with PortSC := (suspendPort c s i).PortSC } := by
  unfold suspendPort
  by_cases ho : s.PortSC i &&& c.kEHCIPortSC_Owner = 0
  · by_cases he : s.PortSC i &&& c.kEHCIPortSC_Enabled = 0
    · simp [ho, he]
    · simp [ho, he, EHCI.setPortSC]
  · simp [ho]

/-- The port loop, one more pass. -/
theorem suspendPorts_succ (c : Decls) (n : Nat) (s : EHCI) :
    suspendPorts c (n + 1) s = suspendPort c (suspendPorts c n s) n := by
  unfold suspendPorts
  rw [List.range_succ, List.foldl_append]
  rfl

/-- The port loop writes nothing but the port registers. -/
theorem suspendPorts_frame (c : Decls) (n : Nat) (s : EHCI) :
    suspendPorts c n s = { s with PortSC := (suspendPorts c n s).PortSC } := by
  induction n with
  | zero => rfl
  | succ n ih =>
    rw [suspendPorts_succ, suspendPort_frame]
    generalize (suspendPort c (suspendPorts c n s) n).PortSC = f
    rw [ih]

/-- The port loop over `n` ports applies the rule of the loop body to each
port below `n`, on the value the register had before the loop. -/
theorem suspendPorts_PortSC (c : Decls) (n : Nat) (s : EHCI) (i : Nat) :
    (suspendPorts c n s).PortSC i =
      if i < n then
        (if s.PortSC i &&& c.kEHCIPortSC_Owner ≠ 0 then s.PortSC i
         else if s.PortSC i &&& c.kEHCIPortSC_Enabled ≠ 0 then
           s.PortSC i ||| c.kEHCIPortSC_Suspend
         else s.PortSC i)
      else s.PortSC i := by
  induction n with
  | zero => simp [suspendPorts]
  | succ n ih =>
    rw [suspendPorts_succ, suspendPort_PortSC]
    by_cases hin : i = n
    · subst hin
      have hself : (suspendPorts c i s).PortSC i = s.PortSC i := by
        rw [ih]; simp
      simp [hself]
    · rw [if_neg hin, ih]
      by_cases hlt : i < n
      · have : i < n + 1 := by omega
        simp [hlt, this]
      · have : ¬ i < n + 1 := by omega
        simp [hlt, this]

/-- The state `EnterTestMode` has built when it reaches its polling loop. -/
theorem haltController_eq (c : Decls) (s : EHCI) :
    haltController c s =
      { s with
        USBCMD := s.USBCMD &&& not32 c.kEHCICMDAsyncEnable &&& not32 c.kEHCICMDPeriodicEnable
          &&& not32 c.kEHCICMDRunStop
        PortSC := (suspendPorts c (c.GetNumberOfPorts % 256) s).PortSC
        _ehciBusState := c.kEHCIBusStateOff } := by
  unfold haltController
  simp only
  rw [suspendPorts_frame]
  have hP : ∀ (n : Nat) (t u : EHCI), t.PortSC = u.PortSC →
      (suspendPorts c n t).PortSC = (suspendPorts c n u).PortSC := by
    intro n t u htu
    funext i
    rw [suspendPorts_PortSC, suspendPorts_PortSC, htu]
  simp only []
  congr 1
  exact hP _ _ _ rfl

/-- The polling loop while no read shows the halted bit: after `fuel` reads it
is still spinning, and only `USBSTS` has moved. -/
theorem waitForHalted_spinning (c : Decls) (sts : Nat → Nat) (fuel n : Nat) (t : EHCI)
    (hno : ∀ j, n ≤ j → j < n + fuel → sts j &&& c.kEHCIHCHaltedBit = 0) :
    ∃ v, waitForHalted c sts fuel n t = Outcome.spinning { t with USBSTS := v } := by
  induction fuel generalizing n t with
  | zero => exact ⟨t.USBSTS, rfl⟩
  | succ fuel ih =>
    have h0 : sts n &&& c.kEHCIHCHaltedBit = 0 := hno n (le_refl _) (by omega)
    obtain ⟨v, hv⟩ := ih (n + 1) { t with USBSTS := sts n }
      (fun j hj1 hj2 => hno j (by omega) (by omega))
    refine ⟨v, ?_⟩
    unfold waitForHalted
    simp only [h0, ne_eq, not_true_eq_false, if_false]
    rw [hv]

/-- The polling loop when the first read that shows the halted bit is read
number `m`: with fuel for that read it returns success, with the flag set and
`USBSTS` holding the value of that read. -/
theorem waitForHalted_returned (c : Decls) (sts : Nat → Nat) (fuel n m : Nat) (t : EHCI)
    (hno : ∀ j, n ≤ j → j < m → sts j &&& c.kEHCIHCHaltedBit = 0)
    (hm : sts m &&& c.kEHCIHCHaltedBit ≠ 0) (hnm : n ≤ m) (hfuel : m < n + fuel) :
    waitForHalted c sts fuel n t =
      Outcome.returned kIOReturnSuccess { t with USBSTS := sts m, _testModeEnabled := true } := by
  induction fuel generalizing n t with
  | zero => omega
  | succ fuel ih =>
    unfold waitForHalted
    by_cases hnm' : n = m
    · subst hnm'
      simp only [hm, ne_eq, not_false_eq_true, if_true]
    · have h0 : sts n &&& c.kEHCIHCHaltedBit = 0 := hno n (le_refl _) (by omega)
      simp only [h0, ne_eq, not_true_eq_false, if_false]
      rw [ih (n + 1) { t with USBSTS := sts n } (fun j hj1 hj2 => hno j (by omega) hj2)
        (by omega) (by omega)]

/-- A read that shows the halted bit has a first such read before or at it. -/
theorem exists_first_halted (c : Decls) (sts : Nat → Nat) (k : Nat)
    (hk : sts k &&& c.kEHCIHCHaltedBit ≠ 0) :
    ∃ m, m ≤ k ∧ sts m &&& c.kEHCIHCHaltedBit ≠ 0 ∧
      ∀ j, j < m → sts j &&& c.kEHCIHCHaltedBit = 0 := by
  classical
  have hex : ∃ m, sts m &&& c.kEHCIHCHaltedBit ≠ 0 := ⟨k, hk⟩
  refine ⟨Nat.find hex, Nat.find_min' hex hk, Nat.find_spec hex, ?_⟩
  intro j hj
  by_contra hne
  exact Nat.find_min hex hj hne

/-- Every outcome of `EnterTestMode`: either no read within the fuel shows the
halted bit and the call is spinning in the state built before the loop, up to
`USBSTS`; or the first such read is number `m`, within the fuel, and the call
has returned success with the flag set. -/
theorem EnterTestMode_cases (c : Decls) (sts : Nat → Nat) (fuel : Nat) (s : EHCI) :
    ((∀ j, j < fuel → sts j &&& c.kEHCIHCHaltedBit = 0) ∧
      ∃ v, EnterTestMode c sts fuel s =
        Outcome.spinning { haltController c s with USBSTS := v }) ∨
    (∃ m, m < fuel ∧ sts m &&& c.kEHCIHCHaltedBit ≠ 0 ∧
      (∀ j, j < m → sts j &&& c.kEHCIHCHaltedBit = 0) ∧
      EnterTestMode c sts fuel s =
        Outcome.returned kIOReturnSuccess
          { haltController c s with USBSTS := sts m, _testModeEnabled := true }) := by
  by_cases hall : ∀ j, j < fuel → sts j &&& c.kEHCIHCHaltedBit = 0
  · left
    refine ⟨hall, ?_⟩
    exact waitForHalted_spinning c sts fuel 0 (haltController c s)
      (fun j _ hj => hall j (by omega))
  · right
    push_neg at hall
    obtain ⟨k, hkf, hk⟩ := hall
    obtain ⟨m, hmk, hm, hfirst⟩ := exists_first_halted c sts k hk
    refine ⟨m, by omega, hm, hfirst, ?_⟩
    exact waitForHalted_returned c sts fuel 0 m (haltController c s)
      (fun j _ hj => hfirst j hj) hm (Nat.zero_le _) (by omega)

/-- Bit `i` of the command register after the three masks are cleared. -/
theorem testBit_cleared_cmd {x : Nat} (hx : x < 2 ^ 32) (a p r i : Nat) :
    (x &&& not32 a &&& not32 p &&& not32 r).testBit i =
      (x.testBit i && !a.testBit i && !p.testBit i && !r.testBit i) := by
  have h1 : x &&& not32 a < 2 ^ 32 := lt_of_le_of_lt Nat.and_le_left hx
  have h2 : x &&& not32 a &&& not32 p < 2 ^ 32 := lt_of_le_of_lt Nat.and_le_left h1
  rw [testBit_and_not32 h2, testBit_and_not32 h1, testBit_and_not32 hx]

/-- A mask that was cleared last, or before other masks were cleared, has no
bit left in the register. -/
theorem cleared_cmd_and (x a p r : Nat) :
    (x &&& not32 a &&& not32 p &&& not32 r) &&& a = 0 ∧
    (x &&& not32 a &&& not32 p &&& not32 r) &&& p = 0 ∧
    (x &&& not32 a &&& not32 p &&& not32 r) &&& r = 0 := by
  refine ⟨?_, ?_, ?_⟩ <;>
  · apply Nat.eq_of_testBit_eq
    intro i
    simp only [Nat.testBit_and, testBit_not32, Nat.zero_testBit]
    cases a.testBit i <;> cases p.testBit i <;> cases r.testBit i <;> simp

/-! ## Writes to the test-control field -/

/-- Bit `i` of the mode shifted to the phase position, as a 32-bit value. -/
theorem testBit_shifted_mode (mode p i : Nat) :
    ((mode <<< p) % 2 ^ 32).testBit i =
      (decide (i < 32) && (decide (p ≤ i) && mode.testBit (i - p))) := by
  rw [Nat.testBit_mod_two_pow, Nat.testBit_shiftLeft]

/-- A mode below 16 shifted to the phase position lies inside the four-bit
field at that position. -/
theorem shifted_mode_in_field {mode : Nat} (hm : mode < 2 ^ 4) (p i : Nat)
    (h : ((mode <<< p) % 2 ^ 32).testBit i = true) :
    ((0xF : Nat) <<< p).testBit i = true := by
  rw [testBit_shifted_mode] at h
  rw [testBit_field4]
  simp only [Bool.and_eq_true, decide_eq_true_eq] at h ⊢
  refine ⟨h.2.1, ?_⟩
  by_contra h4
  have := testBit_eq_false_of_lt_two_pow hm (Nat.le_of_not_lt h4)
  rw [this] at h
  exact Bool.false_ne_true h.2.2

/-- The test-control field of the value `PlacePortInMode` stores is the mode. -/
theorem field_of_write (x mode p : Nat) (hp : p + 4 ≤ 32) (hm : mode < 2 ^ 4) :
    ((x &&& not32 (0xF <<< p) ||| (mode <<< p) % 2 ^ 32) &&& 0xF <<< p) >>> p = mode := by
  apply Nat.eq_of_testBit_eq
  intro j
  rw [Nat.testBit_shiftRight, Nat.testBit_and, Nat.testBit_or, Nat.testBit_and, testBit_not32,
    testBit_shifted_mode, testBit_field4]
  by_cases hj : j < 4
  · have h32 : p + j < 32 := by omega
    simp [hj, h32]
  · have hmj : mode.testBit j = false := testBit_eq_false_of_lt_two_pow hm (Nat.le_of_not_lt hj)
    simp [hj, hmj]

/-- A second write to the test-control field replaces the first. -/
theorem write_write (x m1 m2 p : Nat) (hm1 : m1 < 2 ^ 4) :
    (x &&& not32 (0xF <<< p) ||| (m1 <<< p) % 2 ^ 32) &&& not32 (0xF <<< p) |||
        (m2 <<< p) % 2 ^ 32 =
      x &&& not32 (0xF <<< p) ||| (m2 <<< p) % 2 ^ 32 := by
  apply Nat.eq_of_testBit_eq
  intro i
  simp only [Nat.testBit_or, Nat.testBit_and, testBit_not32]
  by_cases h1 : ((m1 <<< p) % 2 ^ 32).testBit i = true
  · have hf := shifted_mode_in_field hm1 p i h1
    simp [hf]
  · have h1f : ((m1 <<< p) % 2 ^ 32).testBit i = false := by simpa using h1
    rw [h1f]
    cases x.testBit i <;> cases (decide (i < 32)) <;>
      cases ((0xF : Nat) <<< p).testBit i <;> simp

/-- Two masks without a common bit: no position has both. -/
theorem testBit_of_and_eq_zero {x y : Nat} (h : x &&& y = 0) (i : Nat) :
    (x.testBit i && y.testBit i) = false := by
  rw [← Nat.testBit_and, h, Nat.zero_testBit]

/-- The value `PlacePortInMode` stores has no owner bit when the old value had
none and the owner mask is outside the test-control field. -/
theorem write_keeps_owner_clear (x mode p o : Nat) (hm : mode < 2 ^ 4)
    (hx : x &&& o = 0) (hdisj : (0xF <<< p) &&& o = 0) :
    (x &&& not32 (0xF <<< p) ||| (mode <<< p) % 2 ^ 32) &&& o = 0 := by
  apply Nat.eq_of_testBit_eq
  intro i
  have hxi := testBit_of_and_eq_zero hx i
  have hdi := testBit_of_and_eq_zero hdisj i
  simp only [Nat.testBit_and, Nat.testBit_or, Nat.zero_testBit]
  by_cases h1 : ((mode <<< p) % 2 ^ 32).testBit i = true
  · have hf := shifted_mode_in_field hm p i h1
    rw [hf, Bool.true_and] at hdi
    simp [hdi]
  · have h1f : ((mode <<< p) % 2 ^ 32).testBit i = false := by simpa using h1
    rw [h1f, Bool.or_false]
    cases hxb : x.testBit i
    · simp
    · rw [hxb, Bool.true_and] at hxi
      simp [hxi]

/-- Two assignments to the same port register: the second one stays. -/
theorem setPortSC_setPortSC (s : EHCI) (i v w : Nat) :
    (s.setPortSC i v).setPortSC i w = s.setPortSC i w := by
  unfold EHCI.setPortSC
  simp only [EHCI.mk.injEq, true_and, and_true]
  funext j
  by_cases hj : j = i <;> simp [hj]

/-! ## The dispatcher -/

/-- The six `case` labels that share the first branch of the `switch`. -/
theorem port_mode_iff (mode : Nat) :
    (mode = kEHCITestMode_Off ∨ mode = kEHCITestMode_J_State ∨ mode = kEHCITestMode_K_State ∨
      mode = kEHCITestMode_SE0_NAK ∨ mode = kEHCITestMode_Packet ∨
      mode = kEHCITestMode_ForceEnable) ↔ mode ≤ 5 := by
  simp only [kEHCITestMode_Off, kEHCITestMode_J_State, kEHCITestMode_K_State,
    kEHCITestMode_SE0_NAK, kEHCITestMode_Packet, kEHCITestMode_ForceEnable]
  omega

/-- The first branch of the `switch`: the six per-port modes. -/
theorem UIMSetTestMode_port_mode (c : Decls) (sts : Nat → Nat) (fuel mode port : Nat)
    (s : EHCI) (hmode : mode ≤ 5) :
    UIMSetTestMode c sts fuel mode port s =
      if s._testModeEnabled = true then
        Outcome.returned (PlacePortInMode c port mode s).1 (PlacePortInMode c port mode s).2
      else Outcome.returned kIOReturnInternalError s := by
  unfold UIMSetTestMode
  simp only [if_pos ((port_mode_iff mode).mpr hmode)]

/-- The branch `case kEHCITestMode_Start`. -/
theorem UIMSetTestMode_start (c : Decls) (sts : Nat → Nat) (fuel port : Nat) (s : EHCI) :
    UIMSetTestMode c sts fuel kEHCITestMode_Start port s = EnterTestMode c sts fuel s := by
  unfold UIMSetTestMode
  simp [kEHCITestMode_Off, kEHCITestMode_J_State, kEHCITestMode_K_State,
    kEHCITestMode_SE0_NAK, kEHCITestMode_Packet, kEHCITestMode_ForceEnable,
    kEHCITestMode_Start]

/-- The branch `case kEHCITestMode_End`. -/
theorem UIMSetTestMode_end (c : Decls) (sts : Nat → Nat) (fuel port : Nat) (s : EHCI) :
    UIMSetTestMode c sts fuel kEHCITestMode_End port s =
      Outcome.returned (LeaveTestMode c s).1 (LeaveTestMode c s).2 := by
  unfold UIMSetTestMode
  simp [kEHCITestMode_Off, kEHCITestMode_J_State, kEHCITestMode_K_State,
    kEHCITestMode_SE0_NAK, kEHCITestMode_Packet, kEHCITestMode_ForceEnable,
    kEHCITestMode_Start, kEHCITestMode_End]

/-- A mode that matches no `case` label: the `switch` does nothing. -/
theorem UIMSetTestMode_no_case (c : Decls) (sts : Nat → Nat) (fuel mode port : Nat)
    (s : EHCI) (h5 : 5 < mode) (hstart : mode ≠ 10) (hend : mode ≠ 11) :
    UIMSetTestMode c sts fuel mode port s = Outcome.returned kIOReturnInternalError s := by
  have hno : ¬ (mode = kEHCITestMode_Off ∨ mode = kEHCITestMode_J_State ∨
      mode = kEHCITestMode_K_State ∨ mode = kEHCITestMode_SE0_NAK ∨
      mode = kEHCITestMode_Packet ∨ mode = kEHCITestMode_ForceEnable) := by
    rw [port_mode_iff]; omega
  have hs : ¬ mode = kEHCITestMode_Start := hstart
  have he : ¬ mode = kEHCITestMode_End := hend
  unfold UIMSetTestMode
  simp only [if_neg hno, if_neg hs, if_neg he]

/-- The two ways `PlacePortInMode` ends: a failure that writes nothing, or
success after the one assignment to `PortSC[port]`. -/
theorem PlacePortInMode_cases (c : Decls) (s : EHCI) (port mode : Nat) :
    PlacePortInMode c port mode s = (kIOReturnInternalError, s) ∨
    ∃ v, PlacePortInMode c port mode s = (kIOReturnSuccess, s.setPortSC port v) := by
  by_cases hen : s._testModeEnabled = true
  · by_cases hport : (s.HCSParams &&& c.kEHCINumPortsMask) % 256 ≤ port
    · exact Or.inl (PlacePortInMode_invalid_port c s port mode hport)
    · by_cases hown : s.PortSC port &&& c.kEHCIPortSC_Owner = 0
      · exact Or.inr ⟨_, PlacePortInMode_write c s port mode hen (Nat.lt_of_not_le hport) hown⟩
      · exact Or.inl (PlacePortInMode_owned c s port mode hown)
  · left
    unfold PlacePortInMode
    simp [hen]

/-- The two ways `LeaveTestMode` ends. -/
theorem LeaveTestMode_cases (c : Decls) (s : EHCI) :
    LeaveTestMode c s = (kIOReturnInternalError, s) ∨
    LeaveTestMode c s =
      (kIOReturnSuccess,
        { s with USBCMD := s.USBCMD ||| c.kEHCICMDHCReset, _testModeEnabled := false }) := by
  by_cases hsts : s.USBSTS &&& c.kEHCIHCHaltedBit = 0
  · exact Or.inl (LeaveTestMode_not_halted c s hsts)
  · exact Or.inr (LeaveTestMode_halted c s hsts)

/-! ## The session flag and the halted controller -/

/-- The state in which `EnterTestMode` returns satisfies what the flag
promises. -/
theorem haltedWhileEnabled_enter (c : Decls) (s : EHCI) (v : Nat) :
    haltedWhileEnabled c { haltController c s with USBSTS := v, _testModeEnabled := true } := by
  intro _
  rw [haltController_eq]
  obtain ⟨ha, hp, hr⟩ := cleared_cmd_and s.USBCMD c.kEHCICMDAsyncEnable
    c.kEHCICMDPeriodicEnable c.kEHCICMDRunStop
  exact ⟨hr, ha, hp, rfl⟩

/-- Every call of the entry point that returns keeps what the flag promises. -/
theorem haltedWhileEnabled_call (c : Decls) (sts : Nat → Nat) (fuel mode port : Nat)
    (s s' : EHCI) (ret : IOReturn) (hinv : haltedWhileEnabled c s)
    (hret : UIMSetTestMode c sts fuel mode port s = Outcome.returned ret s') :
    haltedWhileEnabled c s' := by
  by_cases hm : mode ≤ 5
  · rw [UIMSetTestMode_port_mode c sts fuel mode port s hm] at hret
    by_cases hen : s._testModeEnabled = true
    · rw [if_pos hen] at hret
      injection hret with _ hs
      rcases PlacePortInMode_cases c s port mode with h | ⟨v, h⟩
      · rw [h] at hs
        exact hs ▸ hinv
      · rw [h] at hs
        subst hs
        exact hinv
    · rw [if_neg hen] at hret
      injection hret with _ hs
      exact hs ▸ hinv
  · by_cases hs : mode = kEHCITestMode_Start
    · rw [hs, UIMSetTestMode_start] at hret
      rcases EnterTestMode_cases c sts fuel s with ⟨_, v, hv⟩ | ⟨m, _, _, _, hv⟩
      · rw [hv] at hret
        cases hret
      · rw [hv] at hret
        injection hret with _ hs'
        subst hs'
        exact haltedWhileEnabled_enter c s (sts m)
    · by_cases he : mode = kEHCITestMode_End
      · rw [he, UIMSetTestMode_end] at hret
        injection hret with _ hs'
        rcases LeaveTestMode_cases c s with h | h
        · rw [h] at hs'
          exact hs' ▸ hinv
        · rw [h] at hs'
          subst hs'
          intro hen
          cases hen
      · rw [UIMSetTestMode_no_case c sts fuel mode port s (by omega) hs he] at hret
        injection hret with _ hs'
        exact hs' ▸ hinv

/-- A sequence of events whose calls all return keeps what the flag promises. -/
theorem haltedWhileEnabled_run (c : Decls) (es : List Event) :
    ∀ s s', haltedWhileEnabled c s → runEvents c es s = some s' → haltedWhileEnabled c s' := by
  induction es with
  | nil =>
    intro s s' hinv hrun
    simp only [runEvents, Option.some.injEq] at hrun
    exact hrun ▸ hinv
  | cons e es ih =>
    intro s s' hinv hrun
    cases e with
    | call mode port sts fuel =>
      simp only [runEvents] at hrun
      cases hU : UIMSetTestMode c sts fuel mode port s with
      | returned ret s1 =>
        rw [hU] at hrun
        exact ih s1 s' (haltedWhileEnabled_call c sts fuel mode port s s1 ret hinv hU) hrun
      | spinning s1 =>
        rw [hU] at hrun
        cases hrun
    | status v =>
      simp only [runEvents] at hrun
      exact ih { s with USBSTS := v } s' hinv hrun

/-! ## The claims -/

/-- C1: for every mode among Off, J-State, K-State, SE0-NAK, Packet and
ForceEnable, every port and every register state, when `_testModeEnabled` is
false `UIMSetTestMode` returns `kIOReturnInternalError` and the whole state
(command register, port registers, bus state, the flag) is as it was. -/
theorem UIMSetTestMode_not_enabled (c : Decls) (sts : Nat → Nat) (fuel mode port : Nat)
    (s : EHCI)
    (hmode : mode ∈ [kEHCITestMode_Off, kEHCITestMode_J_State, kEHCITestMode_K_State,
      kEHCITestMode_SE0_NAK, kEHCITestMode_Packet, kEHCITestMode_ForceEnable])
    (hen : s._testModeEnabled = false) :
    UIMSetTestMode c sts fuel mode port s = Outcome.returned kIOReturnInternalError s := by
  have hm : mode = kEHCITestMode_Off ∨ mode = kEHCITestMode_J_State ∨
      mode = kEHCITestMode_K_State ∨ mode = kEHCITestMode_SE0_NAK ∨
      mode = kEHCITestMode_Packet ∨ mode = kEHCITestMode_ForceEnable := by
    simpa using hmode
  unfold UIMSetTestMode
  simp only [if_pos hm, hen]
  rfl

/-- C1 at a concrete input: the J-State request on the sample controller,
which has never been started. -/
theorem UIMSetTestMode_not_enabled_witness :
    sampleEHCI._testModeEnabled = false ∧
    UIMSetTestMode (ehciDecls 4) (fun _ => 0x1000) 8 kEHCITestMode_J_State 0 sampleEHCI =
      Outcome.returned kIOReturnInternalError sampleEHCI :=
  ⟨rfl, UIMSetTestMode_not_enabled (ehciDecls 4) (fun _ => 0x1000) 8 kEHCITestMode_J_State 0
    sampleEHCI (by decide) rfl⟩

/-- C2: with `_testModeEnabled` true, a port below the port count
(`HCSParams` masked with the port-count mask, which fits the `UInt8` it is
stored in) whose owner bit is clear, and a mode in 0..5, `PlacePortInMode`
returns success; the new `PortSC[port]` has the four-bit test-control field,
whose low bit is at the phase position, equal to the mode, and every bit
outside the field as it was before the call. -/
theorem PlacePortInMode_sets_test_control (c : Decls) (s : EHCI) (port mode : Nat)
    (hfield : c.kEHCIPortSC_TestControl = 0xF <<< c.kEHCIPortSC_TestControlPhase)
    (hphase : c.kEHCIPortSC_TestControlPhase + 4 ≤ 32)
    (hmask : c.kEHCINumPortsMask < 256)
    (hreg : s.PortSC port < 2 ^ 32)
    (hen : s._testModeEnabled = true)
    (hport : port < s.HCSParams &&& c.kEHCINumPortsMask)
    (hown : s.PortSC port &&& c.kEHCIPortSC_Owner = 0)
    (hmode : mode ≤ 5) :
    (PlacePortInMode c port mode s).1 = kIOReturnSuccess ∧
    ((PlacePortInMode c port mode s).2.PortSC port &&& c.kEHCIPortSC_TestControl) >>>
      c.kEHCIPortSC_TestControlPhase = mode ∧
    ∀ i, c.kEHCIPortSC_TestControl.testBit i = false →
      ((PlacePortInMode c port mode s).2.PortSC port).testBit i = (s.PortSC port).testBit i := by
  have hn : (s.HCSParams &&& c.kEHCINumPortsMask) % 256 = s.HCSParams &&& c.kEHCINumPortsMask :=
    Nat.mod_eq_of_lt (lt_of_le_of_lt Nat.and_le_right hmask)
  have hm16 : mode < 2 ^ 4 := by omega
  rw [PlacePortInMode_write c s port mode hen (by rw [hn]; exact hport) hown]
  simp only [setPortSC_PortSC, if_pos]
  refine ⟨trivial, ?_, ?_⟩
  · apply Nat.eq_of_testBit_eq
    intro j
    rw [Nat.testBit_shiftRight, Nat.testBit_and, Nat.testBit_or, testBit_and_not32 hreg,
      Nat.testBit_mod_two_pow, Nat.testBit_shiftLeft, hfield, testBit_field4]
    by_cases hj : j < 4
    · have h32 : c.kEHCIPortSC_TestControlPhase + j < 32 := by omega
      simp [hj, h32]
    · have hmj : mode.testBit j = false :=
        testBit_eq_false_of_lt_two_pow hm16 (Nat.le_of_not_lt hj)
      simp [hj, hmj]
  · intro i hi
    rw [hfield, testBit_field4] at hi
    rw [Nat.testBit_or, testBit_and_not32 hreg, Nat.testBit_mod_two_pow, Nat.testBit_shiftLeft,
      hfield, testBit_field4, hi]
    by_cases hpi : c.kEHCIPortSC_TestControlPhase ≤ i
    · have h4 : ¬ i - c.kEHCIPortSC_TestControlPhase < 4 := by
        intro h
        simp [hpi, h] at hi
      have hmi : mode.testBit (i - c.kEHCIPortSC_TestControlPhase) = false :=
        testBit_eq_false_of_lt_two_pow hm16 (Nat.le_of_not_lt h4)
      simp [hmi]
    · simp [hpi]

/-- C2 at a concrete input: the packet test (mode 4) on port 2 of the sample
controller once the flag is set, with the EHCI register layout. -/
theorem PlacePortInMode_sets_test_control_witness :
    (PlacePortInMode (ehciDecls 4) 2 4 { sampleEHCI with _testModeEnabled := true }).1 =
      kIOReturnSuccess ∧
    ((PlacePortInMode (ehciDecls 4) 2 4 { sampleEHCI with _testModeEnabled := true }).2.PortSC 2
      &&& (ehciDecls 4).kEHCIPortSC_TestControl) >>>
      (ehciDecls 4).kEHCIPortSC_TestControlPhase = 4 ∧
    ∀ i, (ehciDecls 4).kEHCIPortSC_TestControl.testBit i = false →
      ((PlacePortInMode (ehciDecls 4) 2 4
        { sampleEHCI with _testModeEnabled := true }).2.PortSC 2).testBit i =
      (sampleEHCI.PortSC 2).testBit i :=
  PlacePortInMode_sets_test_control (ehciDecls 4) { sampleEHCI with _testModeEnabled := true }
    2 4 (by decide) (by decide) (by decide) (by decide) rfl (by decide) (by decide) (by decide)

/-- C3: with `_testModeEnabled` true and a port at or above the port count
(`HCSParams` masked with the port-count mask), `PlacePortInMode` returns
`kIOReturnInternalError` for every mode and the whole state is as it was; in
particular the J-State request on port 5 fails when the port count is 4. -/
theorem PlacePortInMode_invalid_port_fails (c : Decls) (s : EHCI)
    (_hen : s._testModeEnabled = true) :
    (∀ port mode, s.HCSParams &&& c.kEHCINumPortsMask ≤ port →
      PlacePortInMode c port mode s = (kIOReturnInternalError, s)) ∧
    (s.HCSParams &&& c.kEHCINumPortsMask = 4 →
      PlacePortInMode c 5 kEHCITestMode_J_State s = (kIOReturnInternalError, s)) := by
  have hgen : ∀ port mode, s.HCSParams &&& c.kEHCINumPortsMask ≤ port →
      PlacePortInMode c port mode s = (kIOReturnInternalError, s) := by
    intro port mode hport
    exact PlacePortInMode_invalid_port c s port mode
      (le_trans (Nat.mod_le _ _) hport)
  refine ⟨hgen, fun h4 => hgen 5 _ ?_⟩
  rw [h4]
  norm_num

/-- C3 at a concrete input: the sample controller reports four ports. -/
theorem PlacePortInMode_invalid_port_fails_witness :
    ({ sampleEHCI with _testModeEnabled := true } : EHCI).HCSParams &&&
      (ehciDecls 4).kEHCINumPortsMask = 4 ∧
    PlacePortInMode (ehciDecls 4) 5 kEHCITestMode_J_State
      { sampleEHCI with _testModeEnabled := true } =
      (kIOReturnInternalError, { sampleEHCI with _testModeEnabled := true }) :=
  ⟨by decide,
   (PlacePortInMode_invalid_port_fails (ehciDecls 4)
      { sampleEHCI with _testModeEnabled := true } rfl).2 (by decide)⟩

/-- C4: with `_testModeEnabled` true and a port below the port count whose
`PortSC` owner bit is set, `PlacePortInMode` returns `kIOReturnInternalError`
for every mode and the whole state, `PortSC[port]` included, is as it was. -/
theorem PlacePortInMode_owned_port_fails (c : Decls) (s : EHCI) (port mode : Nat)
    (_hen : s._testModeEnabled = true)
    (_hport : port < s.HCSParams &&& c.kEHCINumPortsMask)
    (hown : s.PortSC port &&& c.kEHCIPortSC_Owner ≠ 0) :
    PlacePortInMode c port mode s = (kIOReturnInternalError, s) :=
  PlacePortInMode_owned c s port mode hown

/-- C4 at a concrete input: port 1 of the sample controller belongs to the
companion controller. -/
theorem PlacePortInMode_owned_port_fails_witness :
    ({ sampleEHCI with _testModeEnabled := true } : EHCI).PortSC 1 &&&
      (ehciDecls 4).kEHCIPortSC_Owner ≠ 0 ∧
    PlacePortInMode (ehciDecls 4) 1 kEHCITestMode_K_State
      { sampleEHCI with _testModeEnabled := true } =
      (kIOReturnInternalError, { sampleEHCI with _testModeEnabled := true }) :=
  ⟨by decide,
   PlacePortInMode_owned_port_fails (ehciDecls 4) { sampleEHCI with _testModeEnabled := true }
     1 kEHCITestMode_K_State rfl (by decide) (by decide)⟩

/-- C5: whenever `EnterTestMode` returns, the result is success, the command
register has the async-enable, periodic-enable and run/stop bits clear and
every other bit as before the call, the bus state is off and
`_testModeEnabled` is true; and it does return once a read of the status
register shows the halted bit. -/
theorem EnterTestMode_halts_controller (c : Decls) (sts : Nat → Nat) (s : EHCI)
    (hreg : s.USBCMD < 2 ^ 32) :
    (∀ fuel ret s', EnterTestMode c sts fuel s = Outcome.returned ret s' →
      ret = kIOReturnSuccess ∧
      s'.USBCMD &&& c.kEHCICMDAsyncEnable = 0 ∧
      s'.USBCMD &&& c.kEHCICMDPeriodicEnable = 0 ∧
      s'.USBCMD &&& c.kEHCICMDRunStop = 0 ∧
      (∀ i, c.kEHCICMDAsyncEnable.testBit i = false →
        c.kEHCICMDPeriodicEnable.testBit i = false →
        c.kEHCICMDRunStop.testBit i = false →
        s'.USBCMD.testBit i = s.USBCMD.testBit i) ∧
      s'._ehciBusState = c.kEHCIBusStateOff ∧
      s'._testModeEnabled = true) ∧
    (∀ k, sts k &&& c.kEHCIHCHaltedBit ≠ 0 → ∀ fuel, k < fuel →
      ∃ s', EnterTestMode c sts fuel s = Outcome.returned kIOReturnSuccess s') := by
  constructor
  · intro fuel ret s' hret
    rcases EnterTestMode_cases c sts fuel s with ⟨_, v, hv⟩ | ⟨m, _, _, _, hm⟩
    · rw [hv] at hret
      cases hret
    · rw [hm] at hret
      injection hret with hr hs
      subst hr
      subst hs
      rw [haltController_eq]
      obtain ⟨ha, hp, hr⟩ := cleared_cmd_and s.USBCMD c.kEHCICMDAsyncEnable
        c.kEHCICMDPeriodicEnable c.kEHCICMDRunStop
      refine ⟨rfl, ha, hp, hr, ?_, rfl, rfl⟩
      intro i hia hip hir
      show (s.USBCMD &&& not32 c.kEHCICMDAsyncEnable &&& not32 c.kEHCICMDPeriodicEnable
        &&& not32 c.kEHCICMDRunStop).testBit i = s.USBCMD.testBit i
      rw [testBit_cleared_cmd hreg, hia, hip, hir]
      simp
  · intro k hk fuel hfuel
    rcases EnterTestMode_cases c sts fuel s with ⟨hall, _⟩ | ⟨m, _, _, _, hm⟩
    · exact absurd (hall k hfuel) hk
    · exact ⟨_, hm⟩

/-- C5 at a concrete input: the sample controller, whose status register shows
the halted bit at its fourth read, observed for four reads. -/
theorem EnterTestMode_halts_controller_witness :
    sampleEHCI.USBCMD < 2 ^ 32 ∧
    ∃ s', EnterTestMode (ehciDecls 4) sampleStatus 4 sampleEHCI =
        Outcome.returned kIOReturnSuccess s' ∧
      s'._ehciBusState = (ehciDecls 4).kEHCIBusStateOff ∧ s'._testModeEnabled = true := by
  have h := EnterTestMode_halts_controller (ehciDecls 4) sampleStatus sampleEHCI (by decide)
  obtain ⟨s', hs'⟩ := h.2 3 (by decide) 4 (by decide)
  have hp := h.1 4 kIOReturnSuccess s' hs'
  exact ⟨by decide, s', hs', hp.2.2.2.2.2.1, hp.2.2.2.2.2.2⟩

/-- C6: in the state `EnterTestMode` leaves when it returns (the state it
already holds while it polls), for every port index `i`, with `numPorts` the
`UInt8` that `GetNumberOfPorts` reports: below `numPorts`, a port whose owner
bit was set keeps its register; a port that was not owned and was enabled has
its old register with the suspend bit or-ed in; a port that was neither owned
nor enabled keeps its register; at or above `numPorts` the register is kept. -/
theorem EnterTestMode_suspends_enabled_ports (c : Decls) (sts : Nat → Nat) (fuel : Nat)
    (s : EHCI) (i : Nat) (hn : c.GetNumberOfPorts < 256) :
    (i < c.GetNumberOfPorts → s.PortSC i &&& c.kEHCIPortSC_Owner ≠ 0 →
      (EnterTestMode c sts fuel s).state.PortSC i = s.PortSC i) ∧
    (i < c.GetNumberOfPorts → s.PortSC i &&& c.kEHCIPortSC_Owner = 0 →
      s.PortSC i &&& c.kEHCIPortSC_Enabled ≠ 0 →
      (EnterTestMode c sts fuel s).state.PortSC i = s.PortSC i ||| c.kEHCIPortSC_Suspend) ∧
    (i < c.GetNumberOfPorts → s.PortSC i &&& c.kEHCIPortSC_Owner = 0 →
      s.PortSC i &&& c.kEHCIPortSC_Enabled = 0 →
      (EnterTestMode c sts fuel s).state.PortSC i = s.PortSC i) ∧
    (c.GetNumberOfPorts ≤ i →
      (EnterTestMode c sts fuel s).state.PortSC i = s.PortSC i) := by
  have hst : (EnterTestMode c sts fuel s).state.PortSC i =
      (suspendPorts c c.GetNumberOfPorts s).PortSC i := by
    rcases EnterTestMode_cases c sts fuel s with ⟨_, v, hv⟩ | ⟨m, _, _, _, hm⟩
    · rw [hv, haltController_eq, Nat.mod_eq_of_lt hn]
      rfl
    · rw [hm, haltController_eq, Nat.mod_eq_of_lt hn]
      rfl
  rw [hst, suspendPorts_PortSC]
  refine ⟨?_, ?_, ?_, ?_⟩
  · intro hi ho
    simp [hi, ho]
  · intro hi ho he
    simp [hi, ho, he]
  · intro hi ho he
    simp [hi, ho, he]
  · intro hi
    simp [Nat.not_lt.mpr hi]

/-- C6 at a concrete input: port 0 of the sample controller is enabled and not
owned, and comes out suspended. -/
theorem EnterTestMode_suspends_enabled_ports_witness :
    sampleEHCI.PortSC 0 &&& (ehciDecls 4).kEHCIPortSC_Owner = 0 ∧
    sampleEHCI.PortSC 0 &&& (ehciDecls 4).kEHCIPortSC_Enabled ≠ 0 ∧
    (EnterTestMode (ehciDecls 4) sampleStatus 4 sampleEHCI).state.PortSC 0 =
      sampleEHCI.PortSC 0 ||| (ehciDecls 4).kEHCIPortSC_Suspend :=
  ⟨by decide, by decide,
   (EnterTestMode_suspends_enabled_ports (ehciDecls 4) sampleStatus 4 sampleEHCI 0
      (by decide)).2.1 (by decide) (by decide) (by decide)⟩

/-- C7: with the status register a sequence of read values whose first value
with the halted bit is at position `k`, `EnterTestMode` is still polling, with
`_testModeEnabled` as the caller left it, while at most `k` reads are
observed, and has returned success, with the flag set and `USBSTS` holding
the value of read `k`, as soon as `k + 1` reads are observed; it has no other
result than success; and when no read shows the halted bit it is polling at
every observation, the flag never assigned. -/
theorem EnterTestMode_polls_until_halted (c : Decls) (sts : Nat → Nat) (s : EHCI) :
    (∀ k, sts k &&& c.kEHCIHCHaltedBit ≠ 0 →
      (∀ j, j < k → sts j &&& c.kEHCIHCHaltedBit = 0) →
      (∀ fuel, fuel ≤ k → ∃ s', EnterTestMode c sts fuel s = Outcome.spinning s' ∧
        s'._testModeEnabled = s._testModeEnabled) ∧
      (∀ fuel, k < fuel → ∃ s', EnterTestMode c sts fuel s =
          Outcome.returned kIOReturnSuccess s' ∧
        s'._testModeEnabled = true ∧ s'.USBSTS = sts k)) ∧
    (∀ fuel ret s', EnterTestMode c sts fuel s = Outcome.returned ret s' →
      ret = kIOReturnSuccess) ∧
    ((∀ j, sts j &&& c.kEHCIHCHaltedBit = 0) →
      ∀ fuel, ∃ s', EnterTestMode c sts fuel s = Outcome.spinning s' ∧
        s'._testModeEnabled = s._testModeEnabled) := by
  have hflag : (haltController c s)._testModeEnabled = s._testModeEnabled := by
    rw [haltController_eq]
  refine ⟨?_, ?_, ?_⟩
  · intro k hk hfirst
    constructor
    · intro fuel hfuel
      obtain ⟨v, hv⟩ := waitForHalted_spinning c sts fuel 0 (haltController c s)
        (fun j _ hj => hfirst j (by omega))
      exact ⟨_, hv, hflag⟩
    · intro fuel hfuel
      have h := waitForHalted_returned c sts fuel 0 k (haltController c s)
        (fun j _ hj => hfirst j hj) hk (Nat.zero_le _) (by omega)
      exact ⟨_, h, rfl, rfl⟩
  · intro fuel ret s' hret
    rcases EnterTestMode_cases c sts fuel s with ⟨_, v, hv⟩ | ⟨m, _, _, _, hm⟩
    · rw [hv] at hret
      cases hret
    · rw [hm] at hret
      injection hret with hr _
      exact hr.symm
  · intro hnever fuel
    obtain ⟨v, hv⟩ := waitForHalted_spinning c sts fuel 0 (haltController c s)
      (fun j _ _ => hnever j)
    exact ⟨_, hv, hflag⟩

/-- C7 at a concrete input: the sample status register first shows the halted
bit at position 3; three reads leave the call polling, four make it return. -/
theorem EnterTestMode_polls_until_halted_witness :
    (∃ s', EnterTestMode (ehciDecls 4) sampleStatus 3 sampleEHCI = Outcome.spinning s' ∧
      s'._testModeEnabled = sampleEHCI._testModeEnabled) ∧
    (∃ s', EnterTestMode (ehciDecls 4) sampleStatus 4 sampleEHCI =
        Outcome.returned kIOReturnSuccess s' ∧
      s'._testModeEnabled = true ∧ s'.USBSTS = sampleStatus 3) :=
  have h := (EnterTestMode_polls_until_halted (ehciDecls 4) sampleStatus sampleEHCI).1 3
    (by decide) (by intro j hj; interval_cases j <;> decide)
  ⟨h.1 3 (le_refl 3), h.2 4 (by decide)⟩

/-- C8: when the halted bit of the status register is clear, `LeaveTestMode`
returns `kIOReturnInternalError` and the whole state is as it was: the command
register is not written, so it gains no reset bit, and `_testModeEnabled`
keeps its value. -/
theorem LeaveTestMode_fails_when_running (c : Decls) (s : EHCI)
    (hsts : s.USBSTS &&& c.kEHCIHCHaltedBit = 0) :
    LeaveTestMode c s = (kIOReturnInternalError, s) ∧
    (LeaveTestMode c s).2.USBCMD = s.USBCMD ∧
    (LeaveTestMode c s).2._testModeEnabled = s._testModeEnabled := by
  rw [LeaveTestMode_not_halted c s hsts]
  exact ⟨rfl, rfl, rfl⟩

/-- C8 at a concrete input: the sample controller is running (status 0), and
the flag, set beforehand, stays set. -/
theorem LeaveTestMode_fails_when_running_witness :
    ({ sampleEHCI with _testModeEnabled := true } : EHCI).USBSTS &&&
      (ehciDecls 4).kEHCIHCHaltedBit = 0 ∧
    LeaveTestMode (ehciDecls 4) { sampleEHCI with _testModeEnabled := true } =
      (kIOReturnInternalError, { sampleEHCI with _testModeEnabled := true }) :=
  ⟨by decide,
   (LeaveTestMode_fails_when_running (ehciDecls 4)
      { sampleEHCI with _testModeEnabled := true } (by decide)).1⟩

/-- C9: when the halted bit of the status register is set, whatever
`_testModeEnabled` was, `LeaveTestMode` returns success; the command register
is its old value with the reset mask or-ed in, so the reset bit is set and
every other bit is as before; `_testModeEnabled` is false; nothing else, and
in particular no port register, is changed. -/
theorem LeaveTestMode_resets_controller (c : Decls) (s : EHCI)
    (hsts : s.USBSTS &&& c.kEHCIHCHaltedBit ≠ 0) :
    (LeaveTestMode c s).1 = kIOReturnSuccess ∧
    (LeaveTestMode c s).2 =
      { s with USBCMD := s.USBCMD ||| c.kEHCICMDHCReset, _testModeEnabled := false } ∧
    (LeaveTestMode c s).2.USBCMD &&& c.kEHCICMDHCReset = c.kEHCICMDHCReset ∧
    (∀ i, c.kEHCICMDHCReset.testBit i = false →
      (LeaveTestMode c s).2.USBCMD.testBit i = s.USBCMD.testBit i) ∧
    (LeaveTestMode c s).2._testModeEnabled = false ∧
    (∀ i, (LeaveTestMode c s).2.PortSC i = s.PortSC i) := by
  rw [LeaveTestMode_halted c s hsts]
  refine ⟨rfl, rfl, or_and_self _ _, ?_, rfl, fun _ => rfl⟩
  intro i hi
  show (s.USBCMD ||| c.kEHCICMDHCReset).testBit i = s.USBCMD.testBit i
  rw [Nat.testBit_or, hi, Bool.or_false]

/-- C9 at a concrete input: the sample controller once halted, with the flag
set. -/
theorem LeaveTestMode_resets_controller_witness :
    (LeaveTestMode (ehciDecls 4)
      { sampleEHCI with USBSTS := 0x1000, _testModeEnabled := true }).1 = kIOReturnSuccess ∧
    (LeaveTestMode (ehciDecls 4)
      { sampleEHCI with USBSTS := 0x1000, _testModeEnabled := true }).2._testModeEnabled =
      false :=
  have h := LeaveTestMode_resets_controller (ehciDecls 4)
    { sampleEHCI with USBSTS := 0x1000, _testModeEnabled := true } (by decide)
  ⟨h.1, h.2.2.2.2.1⟩

/-- C10: when the halted bit of the status register is set, and stays set
because nothing changes the status register between the calls, two calls of
`LeaveTestMode` in succession both return success, the command register has
the reset bit set after each of them, and the state after the second call is
the state after the first. -/
theorem LeaveTestMode_twice (c : Decls) (s : EHCI)
    (hsts : s.USBSTS &&& c.kEHCIHCHaltedBit ≠ 0) :
    (LeaveTestMode c s).1 = kIOReturnSuccess ∧
    (LeaveTestMode c (LeaveTestMode c s).2).1 = kIOReturnSuccess ∧
    (LeaveTestMode c s).2.USBCMD &&& c.kEHCICMDHCReset = c.kEHCICMDHCReset ∧
    (LeaveTestMode c (LeaveTestMode c s).2).2.USBCMD &&& c.kEHCICMDHCReset =
      c.kEHCICMDHCReset ∧
    (LeaveTestMode c (LeaveTestMode c s).2).2 = (LeaveTestMode c s).2 := by
  have h1 := LeaveTestMode_halted c s hsts
  have hsts2 : (LeaveTestMode c s).2.USBSTS &&& c.kEHCIHCHaltedBit ≠ 0 := by
    rw [h1]; exact hsts
  have h2 := LeaveTestMode_halted c (LeaveTestMode c s).2 hsts2
  rw [h2, h1]
  refine ⟨rfl, rfl, or_and_self _ _, or_and_self _ _, ?_⟩
  simp only [or_or_self]

/-- C10 at a concrete input: the sample controller once halted. -/
theorem LeaveTestMode_twice_witness :
    (LeaveTestMode (ehciDecls 4)
      (LeaveTestMode (ehciDecls 4) { sampleEHCI with USBSTS := 0x1000 }).2).1 =
      kIOReturnSuccess ∧
    (LeaveTestMode (ehciDecls 4)
      (LeaveTestMode (ehciDecls 4) { sampleEHCI with USBSTS := 0x1000 }).2).2 =
      (LeaveTestMode (ehciDecls 4) { sampleEHCI with USBSTS := 0x1000 }).2 :=
  have h := LeaveTestMode_twice (ehciDecls 4) { sampleEHCI with USBSTS := 0x1000 } (by decide)
  ⟨h.2.1, h.2.2.2.2⟩

/-- C11: for every mode outside 0, 1, 2, 3, 4, 5, 10 and 11, every port and
every state, whatever `_testModeEnabled` is, `UIMSetTestMode` returns
`kIOReturnInternalError` and the whole state (command register, port
registers, bus state, the flag) is as it was. -/
theorem UIMSetTestMode_unknown_mode (c : Decls) (sts : Nat → Nat) (fuel mode port : Nat)
    (s : EHCI)
    (hmode : mode ∉ [kEHCITestMode_Off, kEHCITestMode_J_State, kEHCITestMode_K_State,
      kEHCITestMode_SE0_NAK, kEHCITestMode_Packet, kEHCITestMode_ForceEnable,
      kEHCITestMode_Start, kEHCITestMode_End]) :
    UIMSetTestMode c sts fuel mode port s = Outcome.returned kIOReturnInternalError s := by
  simp only [kEHCITestMode_Off, kEHCITestMode_J_State, kEHCITestMode_K_State,
    kEHCITestMode_SE0_NAK, kEHCITestMode_Packet, kEHCITestMode_ForceEnable,
    kEHCITestMode_Start, kEHCITestMode_End, List.mem_cons, List.mem_singleton,
    List.mem_nil_iff, or_false, not_or] at hmode
  exact UIMSetTestMode_no_case c sts fuel mode port s (by omega) hmode.2.2.2.2.2.2.1
    hmode.2.2.2.2.2.2.2

/-- C11 at a concrete input: mode 99 on the sample controller with the flag
set. -/
theorem UIMSetTestMode_unknown_mode_witness :
    UIMSetTestMode (ehciDecls 4) sampleStatus 4 99 0
      { sampleEHCI with _testModeEnabled := true } =
      Outcome.returned kIOReturnInternalError { sampleEHCI with _testModeEnabled := true } :=
  UIMSetTestMode_unknown_mode (ehciDecls 4) sampleStatus 4 99 0
    { sampleEHCI with _testModeEnabled := true } (by decide)

/-- C13: the dispatcher routes as specified. For every state and every port
argument, `UIMSetTestMode` with mode Start (10) has the outcome of
`EnterTestMode`, and with mode End (11) it returns the result and the state of
`LeaveTestMode`, the port argument playing no part in either; for a mode in
0..5 with `_testModeEnabled` true it returns the result and the state of
`PlacePortInMode(port, mode)`. -/
theorem UIMSetTestMode_routes (c : Decls) (sts : Nat → Nat) (fuel mode port : Nat)
    (s : EHCI) :
    UIMSetTestMode c sts fuel kEHCITestMode_Start port s = EnterTestMode c sts fuel s ∧
    UIMSetTestMode c sts fuel kEHCITestMode_End port s =
      Outcome.returned (LeaveTestMode c s).1 (LeaveTestMode c s).2 ∧
    (mode ∈ [kEHCITestMode_Off, kEHCITestMode_J_State, kEHCITestMode_K_State,
        kEHCITestMode_SE0_NAK, kEHCITestMode_Packet, kEHCITestMode_ForceEnable] →
      s._testModeEnabled = true →
      UIMSetTestMode c sts fuel mode port s =
        Outcome.returned (PlacePortInMode c port mode s).1
          (PlacePortInMode c port mode s).2) := by
  refine ⟨UIMSetTestMode_start c sts fuel port s, UIMSetTestMode_end c sts fuel port s, ?_⟩
  intro hmode hen
  have hm : mode ≤ 5 := by
    rw [← port_mode_iff]
    simpa using hmode
  rw [UIMSetTestMode_port_mode c sts fuel mode port s hm, if_pos hen]

/-- C13 at a concrete input: the packet test on port 2 of the sample
controller with the flag set goes to `PlacePortInMode`. -/
theorem UIMSetTestMode_routes_witness :
    UIMSetTestMode (ehciDecls 4) sampleStatus 4 kEHCITestMode_Packet 2
      { sampleEHCI with _testModeEnabled := true } =
      Outcome.returned
        (PlacePortInMode (ehciDecls 4) 2 kEHCITestMode_Packet
          { sampleEHCI with _testModeEnabled := true }).1
        (PlacePortInMode (ehciDecls 4) 2 kEHCITestMode_Packet
          { sampleEHCI with _testModeEnabled := true }).2 :=
  (UIMSetTestMode_routes (ehciDecls 4) sampleStatus 4 kEHCITestMode_Packet 2
    { sampleEHCI with _testModeEnabled := true }).2.2 (by decide) rfl

/-- C14: whenever `UIMSetTestMode` returns, its result is `kIOReturnSuccess`
or `kIOReturnInternalError`, two different codes; and each kind of failure
comes back as `kIOReturnInternalError`: a per-port mode with the flag clear
(NotEnabled), a port at or above the port count (InvalidPort), a port owned by
the companion controller (PortOwned), End while the halted bit is clear
(NotHalted), and a mode that matches no case (UnknownMode). -/
theorem UIMSetTestMode_result_codes (c : Decls) (sts : Nat → Nat) (fuel mode port : Nat)
    (s : EHCI) :
    (∀ ret s', UIMSetTestMode c sts fuel mode port s = Outcome.returned ret s' →
      ret = kIOReturnSuccess ∨ ret = kIOReturnInternalError) ∧
    kIOReturnSuccess ≠ kIOReturnInternalError ∧
    (mode ≤ 5 → s._testModeEnabled = false →
      UIMSetTestMode c sts fuel mode port s = Outcome.returned kIOReturnInternalError s) ∧
    (mode ≤ 5 → s._testModeEnabled = true → s.HCSParams &&& c.kEHCINumPortsMask ≤ port →
      UIMSetTestMode c sts fuel mode port s = Outcome.returned kIOReturnInternalError s) ∧
    (mode ≤ 5 → s._testModeEnabled = true → s.PortSC port &&& c.kEHCIPortSC_Owner ≠ 0 →
      UIMSetTestMode c sts fuel mode port s = Outcome.returned kIOReturnInternalError s) ∧
    (s.USBSTS &&& c.kEHCIHCHaltedBit = 0 →
      UIMSetTestMode c sts fuel kEHCITestMode_End port s =
        Outcome.returned kIOReturnInternalError s) ∧
    (5 < mode → mode ≠ kEHCITestMode_Start → mode ≠ kEHCITestMode_End →
      UIMSetTestMode c sts fuel mode port s = Outcome.returned kIOReturnInternalError s) := by
  refine ⟨?_, by decide, ?_, ?_, ?_, ?_, ?_⟩
  · intro ret s' hret
    by_cases hm : mode ≤ 5
    · rw [UIMSetTestMode_port_mode c sts fuel mode port s hm] at hret
      by_cases hen : s._testModeEnabled = true
      · rw [if_pos hen] at hret
        injection hret with hr _
        rcases PlacePortInMode_cases c s port mode with h | ⟨v, h⟩
        · rw [h] at hr
          exact Or.inr hr.symm
        · rw [h] at hr
          exact Or.inl hr.symm
      · rw [if_neg hen] at hret
        injection hret with hr _
        exact Or.inr hr.symm
    · by_cases hs : mode = kEHCITestMode_Start
      · rw [hs, UIMSetTestMode_start] at hret
        rcases EnterTestMode_cases c sts fuel s with ⟨_, v, hv⟩ | ⟨m, _, _, _, hv⟩
        · rw [hv] at hret
          cases hret
        · rw [hv] at hret
          injection hret with hr _
          exact Or.inl hr.symm
      · by_cases he : mode = kEHCITestMode_End
        · rw [he, UIMSetTestMode_end] at hret
          injection hret with hr _
          rcases LeaveTestMode_cases c s with h | h
          · rw [h] at hr
            exact Or.inr hr.symm
          · rw [h] at hr
            exact Or.inl hr.symm
        · rw [UIMSetTestMode_no_case c sts fuel mode port s (by omega) hs he] at hret
          injection hret with hr _
          exact Or.inr hr.symm
  · intro hm hen
    rw [UIMSetTestMode_port_mode c sts fuel mode port s hm, hen]
    rfl
  · intro hm hen hport
    rw [UIMSetTestMode_port_mode c sts fuel mode port s hm, if_pos hen,
      PlacePortInMode_invalid_port c s port mode (le_trans (Nat.mod_le _ _) hport)]
  · intro hm hen hown
    rw [UIMSetTestMode_port_mode c sts fuel mode port s hm, if_pos hen,
      PlacePortInMode_owned c s port mode hown]
  · intro hsts
    rw [UIMSetTestMode_end, LeaveTestMode_not_halted c s hsts]
  · intro h5 hs he
    exact UIMSetTestMode_no_case c sts fuel mode port s h5 hs he

/-- C14 at a concrete input: End on the sample controller, which is running,
returns `kIOReturnInternalError`, one of the two codes. -/
theorem UIMSetTestMode_result_codes_witness :
    UIMSetTestMode (ehciDecls 4) sampleStatus 4 kEHCITestMode_End 0 sampleEHCI =
      Outcome.returned kIOReturnInternalError sampleEHCI ∧
    (kIOReturnInternalError = kIOReturnSuccess ∨
      kIOReturnInternalError = kIOReturnInternalError) :=
  have h := UIMSetTestMode_result_codes (ehciDecls 4) sampleStatus 4 kEHCITestMode_End 0
    sampleEHCI
  have hend := h.2.2.2.2.2.1 (by decide)
  ⟨hend, h.1 kIOReturnInternalError sampleEHCI hend⟩

/-- C16: a call of `PlacePortInMode`, successful or not, leaves the command
register, the status register, the capability register, the bus state,
`_testModeEnabled` and every port register other than `PortSC[port]` as they
were. -/
theorem PlacePortInMode_frame (c : Decls) (s : EHCI) (port mode : Nat) :
    (PlacePortInMode c port mode s).2.USBCMD = s.USBCMD ∧
    (PlacePortInMode c port mode s).2.USBSTS = s.USBSTS ∧
    (PlacePortInMode c port mode s).2.HCSParams = s.HCSParams ∧
    (PlacePortInMode c port mode s).2._ehciBusState = s._ehciBusState ∧
    (PlacePortInMode c port mode s).2._testModeEnabled = s._testModeEnabled ∧
    ∀ j, j ≠ port → (PlacePortInMode c port mode s).2.PortSC j = s.PortSC j := by
  rcases PlacePortInMode_cases c s port mode with h | ⟨v, h⟩
  · rw [h]
    exact ⟨rfl, rfl, rfl, rfl, rfl, fun _ _ => rfl⟩
  · rw [h]
    refine ⟨rfl, rfl, rfl, rfl, rfl, ?_⟩
    intro j hj
    show (s.setPortSC port v).PortSC j = s.PortSC j
    rw [setPortSC_PortSC, if_neg hj]

/-- C16 at a concrete input: the packet test on port 2 of the sample
controller with the flag set leaves port 0 alone. -/
theorem PlacePortInMode_frame_witness :
    (PlacePortInMode (ehciDecls 4) 2 kEHCITestMode_Packet
      { sampleEHCI with _testModeEnabled := true }).2.PortSC 0 = sampleEHCI.PortSC 0 :=
  (PlacePortInMode_frame (ehciDecls 4) { sampleEHCI with _testModeEnabled := true } 2
    kEHCITestMode_Packet).2.2.2.2.2 0 (by decide)

/-- C15: from a state with `_testModeEnabled` false, after any finite sequence
of calls of `UIMSetTestMode` that all return (the command register written by
these calls only, the status register free to change between them), whenever
`_testModeEnabled` is true the run/stop, async-enable and periodic-enable bits
of the command register are clear and the recorded bus state is off. -/
theorem UIMSetTestMode_reachable_invariant (c : Decls) (es : List Event) (s s' : EHCI)
    (hinit : s._testModeEnabled = false)
    (hrun : runEvents c es s = some s')
    (hen : s'._testModeEnabled = true) :
    s'.USBCMD &&& c.kEHCICMDRunStop = 0 ∧
    s'.USBCMD &&& c.kEHCICMDAsyncEnable = 0 ∧
    s'.USBCMD &&& c.kEHCICMDPeriodicEnable = 0 ∧
    s'._ehciBusState = c.kEHCIBusStateOff := by
  have h0 : haltedWhileEnabled c s := by
    intro h
    rw [hinit] at h
    cases h
  exact haltedWhileEnabled_run c es s s' h0 hrun hen

/-- C15 at a concrete input: Start and then the J-state test on port 0 of the
sample controller, the status register dropping to 0 afterwards. -/
theorem UIMSetTestMode_reachable_invariant_witness :
    ∃ s', runEvents (ehciDecls 4) sampleEvents sampleEHCI = some s' ∧
      s'._testModeEnabled = true ∧
      s'.USBCMD &&& (ehciDecls 4).kEHCICMDRunStop = 0 ∧
      s'.USBCMD &&& (ehciDecls 4).kEHCICMDAsyncEnable = 0 ∧
      s'.USBCMD &&& (ehciDecls 4).kEHCICMDPeriodicEnable = 0 ∧
      s'._ehciBusState = (ehciDecls 4).kEHCIBusStateOff :=
  have hrun : runEvents (ehciDecls 4) sampleEvents sampleEHCI =
      some ((runEvents (ehciDecls 4) sampleEvents sampleEHCI).getD sampleEHCI) := rfl
  have hen : ((runEvents (ehciDecls 4) sampleEvents sampleEHCI).getD
      sampleEHCI)._testModeEnabled = true := rfl
  ⟨_, hrun, hen,
    UIMSetTestMode_reachable_invariant (ehciDecls 4) sampleEvents sampleEHCI _ rfl hrun hen⟩

/-- C12: a whole session through the dispatcher. With the four-bit
test-control field at the phase position, a port-count mask that fits the
`UInt8`, the suspend mask outside the owner mask, `_testModeEnabled` false, at
least one port, port 0 not owned, and a status register that shows the halted
bit at some read within the bound: Start returns success and sets the flag;
then J-State on port 0 returns success and the test-control field of
`PortSC[0]` is 1; then End returns success and clears the flag; then J-State
on port 0 returns `kIOReturnInternalError` and the state, `PortSC[0]`
included, is as it was. -/
theorem UIMSetTestMode_session (c : Decls) (sts : Nat → Nat) (fuel k : Nat) (s : EHCI)
    (sts' : Nat → Nat) (fuel' : Nat)
    (hfield : c.kEHCIPortSC_TestControl = 0xF <<< c.kEHCIPortSC_TestControlPhase)
    (hphase : c.kEHCIPortSC_TestControlPhase + 4 ≤ 32)
    (hmask : c.kEHCINumPortsMask < 256)
    (hdisj : c.kEHCIPortSC_Suspend &&& c.kEHCIPortSC_Owner = 0)
    (_hen : s._testModeEnabled = false)
    (hports : 1 ≤ s.HCSParams &&& c.kEHCINumPortsMask)
    (hown : s.PortSC 0 &&& c.kEHCIPortSC_Owner = 0)
    (hk : sts k &&& c.kEHCIHCHaltedBit ≠ 0) (hfuel : k < fuel) :
    ∃ s1 s2 s3,
      UIMSetTestMode c sts fuel kEHCITestMode_Start 0 s =
        Outcome.returned kIOReturnSuccess s1 ∧
      s1._testModeEnabled = true ∧
      UIMSetTestMode c sts' fuel' kEHCITestMode_J_State 0 s1 =
        Outcome.returned kIOReturnSuccess s2 ∧
      (s2.PortSC 0 &&& c.kEHCIPortSC_TestControl) >>> c.kEHCIPortSC_TestControlPhase =
        kEHCITestMode_J_State ∧
      UIMSetTestMode c sts' fuel' kEHCITestMode_End 0 s2 =
        Outcome.returned kIOReturnSuccess s3 ∧
      s3._testModeEnabled = false ∧
      UIMSetTestMode c sts' fuel' kEHCITestMode_J_State 0 s3 =
        Outcome.returned kIOReturnInternalError s3 ∧
      (UIMSetTestMode c sts' fuel' kEHCITestMode_J_State 0 s3).state.PortSC 0 = s3.PortSC 0 := by
  have hn : (s.HCSParams &&& c.kEHCINumPortsMask) % 256 = s.HCSParams &&& c.kEHCINumPortsMask :=
    Nat.mod_eq_of_lt (lt_of_le_of_lt Nat.and_le_right hmask)
  have hj5 : kEHCITestMode_J_State ≤ 5 := by decide
  -- Start
  obtain ⟨m, hm, hstart⟩ : ∃ m, sts m &&& c.kEHCIHCHaltedBit ≠ 0 ∧
      EnterTestMode c sts fuel s = Outcome.returned kIOReturnSuccess
        { haltController c s with USBSTS := sts m, _testModeEnabled := true } := by
    rcases EnterTestMode_cases c sts fuel s with ⟨hall, _⟩ | ⟨m, _, hm, _, hv⟩
    · exact absurd (hall k hfuel) hk
    · exact ⟨m, hm, hv⟩
  -- the state Start leaves: port 0 still not owned, same capability register
  have hown1 : (haltController c s).PortSC 0 &&& c.kEHCIPortSC_Owner = 0 := by
    rw [haltController_eq]
    show (suspendPorts c (c.GetNumberOfPorts % 256) s).PortSC 0 &&& c.kEHCIPortSC_Owner = 0
    rw [suspendPorts_PortSC]
    by_cases hlt : 0 < c.GetNumberOfPorts % 256
    · by_cases he : s.PortSC 0 &&& c.kEHCIPortSC_Enabled = 0
      · simp [hlt, hown, he]
      · simp [hlt, hown, he, Nat.and_distrib_right, hdisj]
    · simp [hlt, hown]
  have hcap1 : (haltController c s).HCSParams = s.HCSParams := by
    rw [haltController_eq]
  have hport1 : 0 < ((haltController c s).HCSParams &&& c.kEHCINumPortsMask) % 256 := by
    rw [hcap1, hn]
    exact hports
  have hplace := PlacePortInMode_write c
    { haltController c s with USBSTS := sts m, _testModeEnabled := true } 0
    kEHCITestMode_J_State rfl hport1 hown1
  -- the states of the session
  refine ⟨{ haltController c s with USBSTS := sts m, _testModeEnabled := true },
    (PlacePortInMode c 0 kEHCITestMode_J_State
      { haltController c s with USBSTS := sts m, _testModeEnabled := true }).2,
    (LeaveTestMode c (PlacePortInMode c 0 kEHCITestMode_J_State
      { haltController c s with USBSTS := sts m, _testModeEnabled := true }).2).2,
    ?_, rfl, ?_, ?_, ?_, ?_, ?_, ?_⟩
  · rw [UIMSetTestMode_start, hstart]
  · rw [UIMSetTestMode_port_mode _ _ _ _ _ _ hj5, if_pos rfl, hplace]
  · rw [hplace]
    simp only []
    rw [setPortSC_PortSC, if_pos rfl, hfield]
    exact field_of_write _ _ _ hphase (by decide)
  · rw [UIMSetTestMode_end, hplace, LeaveTestMode_halted _ _ hm]
  · rw [hplace, LeaveTestMode_halted _ _ hm]
  · rw [UIMSetTestMode_port_mode _ _ _ _ _ _ hj5, hplace, LeaveTestMode_halted _ _ hm]
    rfl
  · rw [UIMSetTestMode_port_mode _ _ _ _ _ _ hj5, hplace, LeaveTestMode_halted _ _ hm]
    rfl

/-- C12 at a concrete input: the session on the sample controller, whose
status register shows the halted bit at its fourth read. -/
theorem UIMSetTestMode_session_witness :
    ∃ s1 s2 s3,
      UIMSetTestMode (ehciDecls 4) sampleStatus 4 kEHCITestMode_Start 0 sampleEHCI =
        Outcome.returned kIOReturnSuccess s1 ∧
      s1._testModeEnabled = true ∧
      UIMSetTestMode (ehciDecls 4) sampleStatus 4 kEHCITestMode_J_State 0 s1 =
        Outcome.returned kIOReturnSuccess s2 ∧
      (s2.PortSC 0 &&& (ehciDecls 4).kEHCIPortSC_TestControl) >>>
        (ehciDecls 4).kEHCIPortSC_TestControlPhase = kEHCITestMode_J_State ∧
      UIMSetTestMode (ehciDecls 4) sampleStatus 4 kEHCITestMode_End 0 s2 =
        Outcome.returned kIOReturnSuccess s3 ∧
      s3._testModeEnabled = false ∧
      UIMSetTestMode (ehciDecls 4) sampleStatus 4 kEHCITestMode_J_State 0 s3 =
        Outcome.returned kIOReturnInternalError s3 ∧
      (UIMSetTestMode (ehciDecls 4) sampleStatus 4 kEHCITestMode_J_State 0 s3).state.PortSC 0 =
        s3.PortSC 0 :=
  UIMSetTestMode_session (ehciDecls 4) sampleStatus 4 3 sampleEHCI sampleStatus 4
    (by decide) (by decide) (by decide) (by decide) rfl (by decide) (by decide) (by decide)
    (by decide)

/-- C17: with `_testModeEnabled` true, a port below the port count whose owner
bit is clear, the owner mask outside the four-bit test-control field, and
modes `m1`, `m2` in 0..5: `PlacePortInMode(port, m1)` followed by
`PlacePortInMode(port, m2)` gives the result and the state of
`PlacePortInMode(port, m2)` alone; repeating one call changes nothing more;
and mode Off after any mode leaves the port register at its first value with
the test-control field zero. -/
theorem PlacePortInMode_last_write_wins (c : Decls) (s : EHCI) (port m1 m2 : Nat)
    (hfield : c.kEHCIPortSC_TestControl = 0xF <<< c.kEHCIPortSC_TestControlPhase)
    (hdisj : c.kEHCIPortSC_TestControl &&& c.kEHCIPortSC_Owner = 0)
    (hmask : c.kEHCINumPortsMask < 256)
    (hreg : s.PortSC port < 2 ^ 32)
    (hen : s._testModeEnabled = true)
    (hport : port < s.HCSParams &&& c.kEHCINumPortsMask)
    (hown : s.PortSC port &&& c.kEHCIPortSC_Owner = 0)
    (hm1 : m1 ≤ 5) (_hm2 : m2 ≤ 5) :
    PlacePortInMode c port m2 (PlacePortInMode c port m1 s).2 = PlacePortInMode c port m2 s ∧
    PlacePortInMode c port m1 (PlacePortInMode c port m1 s).2 = PlacePortInMode c port m1 s ∧
    (PlacePortInMode c port kEHCITestMode_Off (PlacePortInMode c port m1 s).2).2.PortSC port =
      s.PortSC port &&& not32 c.kEHCIPortSC_TestControl ∧
    ∀ i, ((PlacePortInMode c port kEHCITestMode_Off
        (PlacePortInMode c port m1 s).2).2.PortSC port).testBit i =
      ((s.PortSC port).testBit i && !c.kEHCIPortSC_TestControl.testBit i) := by
  have hn : (s.HCSParams &&& c.kEHCINumPortsMask) % 256 = s.HCSParams &&& c.kEHCINumPortsMask :=
    Nat.mod_eq_of_lt (lt_of_le_of_lt Nat.and_le_right hmask)
  have hport' : port < (s.HCSParams &&& c.kEHCINumPortsMask) % 256 := by rw [hn]; exact hport
  have hm16 : m1 < 2 ^ 4 := by omega
  have hdisj' : (0xF <<< c.kEHCIPortSC_TestControlPhase) &&& c.kEHCIPortSC_Owner = 0 := by
    rw [← hfield]; exact hdisj
  -- the first call, and what it leaves in `PortSC[port]`
  have h1 := PlacePortInMode_write c s port m1 hen hport' hown
  have hown1 : ∀ v, (s.setPortSC port v).PortSC port = v := by
    intro v
    rw [setPortSC_PortSC, if_pos rfl]
  -- any second call on that state
  have h2 : ∀ m, PlacePortInMode c port m (PlacePortInMode c port m1 s).2 =
      PlacePortInMode c port m s := by
    intro m
    rw [h1, PlacePortInMode_write c s port m hen hport' hown]
    have hw := PlacePortInMode_write c
      (s.setPortSC port (s.PortSC port &&& not32 c.kEHCIPortSC_TestControl |||
        (m1 <<< c.kEHCIPortSC_TestControlPhase) % 2 ^ 32)) port m hen hport'
      (by
        rw [hown1, hfield]
        exact write_keeps_owner_clear _ _ _ _ hm16 hown hdisj')
    simp only [] at hw ⊢
    rw [hw, hown1, setPortSC_setPortSC, hfield, write_write _ _ _ _ hm16]
  have hoff : (PlacePortInMode c port kEHCITestMode_Off (PlacePortInMode c port m1 s).2).2.PortSC
      port = s.PortSC port &&& not32 c.kEHCIPortSC_TestControl := by
    rw [h2, PlacePortInMode_write c s port _ hen hport' hown]
    simp only [hown1, kEHCITestMode_Off, Nat.zero_shiftLeft, Nat.zero_mod, Nat.or_zero]
  refine ⟨h2 m2, h2 m1, hoff, ?_⟩
  intro i
  rw [hoff, testBit_and_not32 hreg]

/-- C17 at a concrete input: the K-state test and then the packet test on
port 2 of the sample controller with the flag set. -/
theorem PlacePortInMode_last_write_wins_witness :
    PlacePortInMode (ehciDecls 4) 2 4
      (PlacePortInMode (ehciDecls 4) 2 2 { sampleEHCI with _testModeEnabled := true }).2 =
      PlacePortInMode (ehciDecls 4) 2 4 { sampleEHCI with _testModeEnabled := true } :=
  (PlacePortInMode_last_write_wins (ehciDecls 4) { sampleEHCI with _testModeEnabled := true }
    2 2 4 (by decide) (by decide) (by decide) (by decide) rfl (by decide) (by decide)
    (by decide) (by decide)).1

end AppleUSBEHCI
